import Mathlib

/-!
Shallow embedding of the `rake` terminal snake game (src/main.rs).

Coordinates `[i16; 2]` are modelled as pairs of integers `(x, y)`
(index 0 = x, index 1 = y).  Grid dimensions (`u16` in the source) are
natural numbers, cast to `Int` where the source casts to `i16`.  The
terminal I/O calls (cursor moves, glyph printing, flushing) are effect-free
on the game state and are dropped; the random number generator of
`Apple::spawn` is modelled as an explicit sampled-cell argument.  Fallible
index arithmetic (`usize` subtraction and `Vec` indexing, which panic when
out of range) is modelled with `Option`.
-/

namespace Rake

/-- A grid cell `[i16; 2]`, as `(x, y)`. -/
abbrev Coord := Int × Int

/-- The `Game` struct: grid dimensions, wall cell list, score and the
input polling rate in milliseconds (`time::Duration`). -/
structure Game where
  height : Nat
  width : Nat
  wall : List Coord
  score : Nat
  pollingRate : Nat
deriving Repr, DecidableEq

/-- `Game::new`: plain field-by-field construction, no validation. -/
def Game.new (height width : Nat) (wall : List Coord) (score : Nat)
    (pollingRate : Nat) : Game :=
  { height := height, width := width, wall := wall, score := score,
    pollingRate := pollingRate }

/-- `Game::default`: height 15, width 40, empty wall, score 0, 100 ms. -/
def Game.default : Game :=
  Game.new 15 40 [] 0 100

/-- The cells pushed onto `self.wall` by `Game::draw_border`: for `y` in
`0..height`, `x` in `0..width`, the cell `[x, y]` whenever
`y == 0 || y == height-1 || x == 0 || x == width-1`, in iteration order. -/
def borderCells (height width : Nat) : List Coord :=
  (List.range height).flatMap fun y =>
    (List.range width).filterMap fun x =>
      if y = 0 ∨ y = height - 1 ∨ x = 0 ∨ x = width - 1 then
        some ((x : Int), (y : Int))
      else
        Option.none

/-- `Game::draw_border`, state part only: appends the border cells to the
wall list (the glyph drawing is terminal I/O). -/
def Game.drawBorder (g : Game) : Game :=
  { g with wall := g.wall ++ borderCells g.height g.width }

/-- `Game::increase_score`. -/
def Game.increaseScore (g : Game) : Game :=
  { g with score := g.score + 1 }

/-- The `Snake` struct. -/
structure Snake where
  body : List Coord
  head : Coord
  tail : Coord
  wake : Coord
  length : Nat
  direction : Coord
deriving Repr, DecidableEq

/-- `Snake::new`. -/
def Snake.new (head : Coord) (body : List Coord) (tail wake : Coord)
    (length : Nat) (direction : Coord) : Snake :=
  { head := head, body := body, tail := tail, wake := wake,
    length := length, direction := direction }

/-- `Snake::spawn`: head at `(width/3, height/2)`, body of three cells
extending leftwards, length 3, heading right. -/
def Snake.spawn (g : Game) : Snake :=
  let head : Coord := ((g.width : Int) / 3, (g.height : Int) / 2)
  let tail : Coord := (head.1 - 2, head.2)
  let wake : Coord := (head.1 - 3, head.2)
  let body : List Coord := [head, (head.1 - 1, head.2), tail]
  Snake.new head body tail wake 3 (1, 0)

/-- The decoded key events the game reacts to (`w`/`d`/`s`/`a`/`Esc`),
plus `other` for any other key event read from the terminal. -/
inductive InputEvent where
  | keyW
  | keyD
  | keyS
  | keyA
  | esc
  | other
deriving Repr, DecidableEq

/-- `Game::handle_input`, state part: `Option.none` models `poll` timing
out with no event; otherwise the if/else chain of the source is applied to
the snake's direction.  Each turn key is guarded by one component test
against the reverse direction; `Esc` stores the sentinel `[69, 69]`. -/
def handleInput (s : Snake) (ev : Option InputEvent) : Snake :=
  match ev with
  | Option.none => s
  | some e =>
    if e = InputEvent.keyW ∧ s.direction.2 ≠ 1 then
      { s with direction := (0, -1) }
    else if e = InputEvent.keyD ∧ s.direction.1 ≠ -1 then
      { s with direction := (1, 0) }
    else if e = InputEvent.keyS ∧ s.direction.2 ≠ -1 then
      { s with direction := (0, 1) }
    else if e = InputEvent.keyA ∧ s.direction.1 ≠ 1 then
      { s with direction := (-1, 0) }
    else if e = InputEvent.esc then
      { s with direction := (69, 69) }
    else
      s

/-- `EXIT_SIGNAL`. -/
def EXIT_SIGNAL : Coord := (69, 69)

/-- The direction each turn key requests in `Game::handle_input`
(`w`, `d`, `s`, `a` in source order); `Option.none` for the non-turn
events. -/
def turnTarget : InputEvent → Option Coord
  | InputEvent.keyW => some (0, -1)
  | InputEvent.keyD => some (1, 0)
  | InputEvent.keyS => some (0, 1)
  | InputEvent.keyA => some (-1, 0)
  | InputEvent.esc => Option.none
  | InputEvent.other => Option.none

/-- `Snake::grow`: insert a copy of the tail at index `length - 1` of the
body and increment `length`. -/
def Snake.grow (s : Snake) : Snake :=
  { s with body := s.body.insertIdx (s.length - 1) (s.tail.1, s.tail.2),
           length := s.length + 1 }

/-- The do-while shift loop of `Snake::slither`, entered with `i`
(initially `length - 2`): `body[i] = body[i-1]; i -= 1;` until `i < 1`.
`Option.none` models the panics of the source: entering with `i == 0`
makes `body[i-1]` underflow, and an out-of-range index panics. -/
def shiftLoop : Nat → List Coord → Option (List Coord)
  | 0, _ => Option.none
  | 1, l =>
    match l[1]?, l[0]? with
    | some _, some v => some (l.set 1 v)
    | _, _ => Option.none
  | i + 2, l =>
    match l[i + 2]?, l[i + 1]? with
    | some _, some v => shiftLoop (i + 1) (l.set (i + 2) v)
    | _, _ => Option.none

/-- `Vec` element assignment `body[i] = v`: panics (`Option.none`) when
`i` is out of range. -/
def setChecked (l : List Coord) (i : Nat) (v : Coord) : Option (List Coord) :=
  if i < l.length then some (l.set i v) else Option.none

/-- `Snake::slither`.  In source order: `wake = tail`;
`tail = body[length-2]`; the shift loop from `i = length-2`;
`body[1] = head`; `head += direction`; `body[length-1] = tail`;
`body[0] = head`.  `Option.none` models the panics: `length - 2`
underflows for `length < 2`, and every index is range-checked. -/
def Snake.slither (s : Snake) : Option Snake :=
  if s.length < 2 then Option.none
  else
    match s.body[s.length - 2]? with
    | Option.none => Option.none
    | some t2 => do
      let b1 ← shiftLoop (s.length - 2) s.body
      let b2 ← setChecked b1 1 (s.head.1, s.head.2)
      let newHead : Coord := (s.head.1 + s.direction.1, s.head.2 + s.direction.2)
      let b3 ← setChecked b2 (s.length - 1) (t2.1, t2.2)
      let b4 ← setChecked b3 0 newHead
      some { s with wake := (s.tail.1, s.tail.2), tail := (t2.1, t2.2),
                    head := newHead, body := b4 }

/-- `Snake::collided_with_self`: membership of `head` in the slice
`body[1..length]`. -/
def Snake.collidedWithSelf (s : Snake) : Bool :=
  ((s.body.take s.length).drop 1).contains s.head

/-- `Snake::collided_with_wall`: the four if-tests of the source. -/
def Snake.collidedWithWall (s : Snake) (g : Game) : Bool :=
  if s.head.1 = (g.width : Int) - 1 then true
  else if s.head.1 = 0 then true
  else if s.head.2 = (g.height : Int) - 1 then true
  else if s.head.2 = 0 then true
  else false

/-- The `Apple` struct. -/
structure Apple where
  position : Coord
  «exists» : Bool
deriving Repr, DecidableEq

/-- `Apple::new`. -/
def Apple.new (position : Coord) (ex : Bool) : Apple :=
  { position := position, «exists» := ex }

/-- `Apple::default`. -/
def Apple.default : Apple :=
  Apple.new (0, 0) false

/-- `Snake::ate`. -/
def Snake.ate (s : Snake) (a : Apple) : Bool :=
  s.head.1 = a.position.1 ∧ s.head.2 = a.position.2

/-- `Apple::spawn`, state part: the freshly sampled random cell is the
explicit `cell` argument (the source draws `x` from `0..width`, `y` from
`0..height`).  The position is overwritten unconditionally; `exists` is
set only when the cell is in neither the wall list nor the snake body. -/
def Apple.spawn (a : Apple) (cell : Coord) (snake : Snake) (g : Game) : Apple :=
  let a1 := { a with position := cell }
  if ¬ g.wall.contains cell ∧ ¬ snake.body.contains cell then
    { a1 with «exists» := true }
  else
    a1

/-- The `while !apple.exists { apple.spawn(...) }` retry loop of `main`,
with the random stream modelled as the list of sampled cells. -/
def spawnLoop (snake : Snake) (g : Game) : Apple → List Coord → Apple
  | a, [] => a
  | a, c :: cs =>
    if a.«exists» then a else spawnLoop snake g (a.spawn c snake g) cs

/-- Snake states reachable in `main`'s loop: the spawned snake, closed
under input handling, growth, and (successful) slithering. -/
inductive Reachable (g : Game) : Snake → Prop
  | spawn : Reachable g (Snake.spawn g)
  | input {s : Snake} (ev : Option InputEvent) :
      Reachable g s → Reachable g (handleInput s ev)
  | grow {s : Snake} : Reachable g s → Reachable g s.grow
  | slither {s s' : Snake} : Reachable g s → s.slither = some s' →
      Reachable g s'

/-! ## Supporting lemmas -/

/-- `List.contains` agrees with membership on coordinate lists. -/
theorem contains_iff (l : List Coord) (a : Coord) : l.contains a = true ↔ a ∈ l := by
  simp [List.contains_iff_exists_mem_beq]

/-- Full characterisation of one run of the shift loop, entered at index
`i` with `1 ≤ i < l.length`: it succeeds, preserves the list length, and
moves every element at index `0 ≤ j - 1 < i` one slot to the right. -/
theorem shiftLoop_spec : ∀ (i : Nat) (l : List Coord), 1 ≤ i → i < l.length →
    ∃ l', shiftLoop i l = some l' ∧ l'.length = l.length ∧
      ∀ j : Nat, l'[j]? = if 1 ≤ j ∧ j ≤ i then l[j - 1]? else l[j]?
  | 0, _, h1, _ => absurd h1 (by omega)
  | 1, l, _, h2 => by
    have h0 : (0 : Nat) < l.length := by omega
    have ha := List.getElem?_eq_getElem h2
    have hv := List.getElem?_eq_getElem h0
    refine ⟨l.set 1 l[0], by simp [shiftLoop, ha, hv], by simp, ?_⟩
    intro j
    rw [List.getElem?_set]
    rcases eq_or_ne j 1 with hj | hj
    · subst hj
      simp [h2, hv]
    · have hc : ¬ (1 ≤ j ∧ j ≤ 1) := by omega
      simp [hc, Ne.symm hj]
  | (k + 2), l, _, h2 => by
    have hk1 : k + 1 < l.length := by omega
    have ha := List.getElem?_eq_getElem h2
    have hv := List.getElem?_eq_getElem hk1
    obtain ⟨l', heq, hl, hpt⟩ :=
      shiftLoop_spec (k + 1) (l.set (k + 2) l[k + 1]) (by omega)
        (by rw [List.length_set]; omega)
    refine ⟨l', by simp [shiftLoop, ha, hv, heq], by simpa using hl, ?_⟩
    intro j
    rw [hpt j]
    rcases Nat.lt_trichotomy j (k + 2) with hj | hj | hj
    · rcases Nat.eq_zero_or_pos j with h0 | h1j
      · subst h0
        rw [if_neg (by omega), if_neg (by omega),
          List.getElem?_set_ne (by omega)]
      · rw [if_pos ⟨h1j, by omega⟩, if_pos ⟨h1j, by omega⟩,
          List.getElem?_set_ne (by omega)]
    · subst hj
      rw [if_neg (by omega), if_pos (by omega), List.getElem?_set]
      rw [if_pos rfl, if_pos h2]
      simp [hv]
    · rw [if_neg (by omega), if_neg (by omega),
        List.getElem?_set_ne (by omega)]

/-- The shift loop preserves the body length whenever it succeeds. -/
theorem shiftLoop_length : ∀ (i : Nat) (l l' : List Coord),
    shiftLoop i l = some l' → l'.length = l.length
  | 0, _, _, h => by simp [shiftLoop] at h
  | 1, l, l', h => by
    cases h1 : l[1]? with
    | none => rw [shiftLoop, h1] at h; simp at h
    | some a =>
      cases h0 : l[0]? with
      | none => rw [shiftLoop, h1, h0] at h; simp at h
      | some v =>
        rw [shiftLoop, h1, h0] at h
        cases h
        simp
  | (k + 2), l, l', h => by
    cases h1 : l[k + 2]? with
    | none => rw [shiftLoop, h1] at h; simp at h
    | some a =>
      cases h0 : l[k + 1]? with
      | none => rw [shiftLoop, h1, h0] at h; simp at h
      | some v =>
        rw [shiftLoop, h1, h0] at h
        have := shiftLoop_length (k + 1) (l.set (k + 2) v) l' h
        simpa using this

/-- `setChecked` succeeds exactly on in-range indices. -/
theorem setChecked_lt {l : List Coord} {i : Nat} (v : Coord) (h : i < l.length) :
    setChecked l i v = some (l.set i v) := by
  simp [setChecked, h]

/-- One successful run of `Snake::slither` on a snake with `length ≥ 3`
and `body` of matching length: the produced state, with its body given
pointwise. -/
theorem slither_run (s : Snake) (h3 : 3 ≤ s.length)
    (hlen : s.body.length = s.length) :
    ∃ t2 b4, s.body[s.length - 2]? = some t2 ∧
      s.slither = some { s with
        wake := (s.tail.1, s.tail.2),
        tail := (t2.1, t2.2),
        head := (s.head.1 + s.direction.1, s.head.2 + s.direction.2),
        body := b4 } ∧
      b4.length = s.body.length ∧
      b4[0]? = some (s.head.1 + s.direction.1, s.head.2 + s.direction.2) ∧
      b4[1]? = some s.head ∧
      (∀ j, 2 ≤ j → j ≤ s.length - 2 → b4[j]? = s.body[j - 1]?) ∧
      b4[s.length - 1]? = some t2 := by
  have hidx : s.length - 2 < s.body.length := by omega
  have ht2 := List.getElem?_eq_getElem hidx
  obtain ⟨b1, hb1, hb1len, hb1pt⟩ :=
    shiftLoop_spec (s.length - 2) s.body (by omega) (by omega)
  have hlen1 : (1 : Nat) < b1.length := by omega
  have e2 := setChecked_lt (l := b1) (i := 1) (s.head.1, s.head.2) hlen1
  have hlen2 : s.length - 1 < (b1.set 1 (s.head.1, s.head.2)).length := by
    rw [List.length_set]; omega
  have e3 := setChecked_lt (s.body[s.length - 2].1, s.body[s.length - 2].2) hlen2
  have hlen3 : (0 : Nat) <
      ((b1.set 1 (s.head.1, s.head.2)).set (s.length - 1)
        (s.body[s.length - 2].1, s.body[s.length - 2].2)).length := by
    rw [List.length_set, List.length_set]; omega
  have e4 := setChecked_lt (s.head.1 + s.direction.1, s.head.2 + s.direction.2) hlen3
  refine ⟨s.body[s.length - 2],
    ((b1.set 1 (s.head.1, s.head.2)).set (s.length - 1)
        (s.body[s.length - 2].1, s.body[s.length - 2].2)).set 0
      (s.head.1 + s.direction.1, s.head.2 + s.direction.2),
    ht2, ?_, ?_, ?_, ?_, ?_, ?_⟩
  · rw [Snake.slither, if_neg (by omega), ht2]
    rw [hb1]
    simp [e2, e3, e4]
  · simp only [List.length_set]; omega
  · rw [List.getElem?_set_self (by omega)]
  · rw [List.getElem?_set_ne (by omega), List.getElem?_set_ne (by omega),
      List.getElem?_set_self (by omega)]
  · intro j hj2 hj
    rw [List.getElem?_set_ne (by omega), List.getElem?_set_ne (by omega),
      List.getElem?_set_ne (by omega), hb1pt j, if_pos ⟨by omega, hj⟩]
  · rw [List.getElem?_set_ne (by omega), List.getElem?_set_self (by omega)]

/-- Inversion of a successful `Snake::slither` run: how every field of
the result is built from the input state. -/
theorem slither_inversion {s s' : Snake} (h : s.slither = some s') :
    ∃ t2 b1, s.body[s.length - 2]? = some t2 ∧
      shiftLoop (s.length - 2) s.body = some b1 ∧
      s' = { s with
        wake := (s.tail.1, s.tail.2),
        tail := (t2.1, t2.2),
        head := (s.head.1 + s.direction.1, s.head.2 + s.direction.2),
        body := ((b1.set 1 (s.head.1, s.head.2)).set (s.length - 1)
          (t2.1, t2.2)).set 0
          (s.head.1 + s.direction.1, s.head.2 + s.direction.2) } := by
  unfold Snake.slither at h
  by_cases h2 : s.length < 2
  · rw [if_pos h2] at h
    exact absurd h (by simp)
  rw [if_neg h2] at h
  cases hm : s.body[s.length - 2]? with
  | none => rw [hm] at h; exact absurd h (by simp)
  | some t2 =>
    rw [hm] at h
    simp only [Option.bind_eq_bind, Option.bind_eq_some, setChecked,
      Option.ite_none_right_eq_some, Option.some.injEq] at h
    obtain ⟨b1, hb1, b2, ⟨hc2, rfl⟩, b3, ⟨hc3, rfl⟩, b4, ⟨hc4, rfl⟩, hrec⟩ := h
    exact ⟨t2, b1, rfl, hb1, hrec.symm⟩

/-- A successful slither changes neither the body length nor the
`length` field. -/
theorem slither_preserves_length {s s' : Snake} (h : s.slither = some s') :
    s'.body.length = s.body.length ∧ s'.length = s.length := by
  obtain ⟨t2, b1, hm, hb1, rfl⟩ := slither_inversion h
  have hb1len := shiftLoop_length _ _ _ hb1
  exact ⟨by simp [hb1len], rfl⟩

/-- Input handling never touches the body or the length. -/
theorem handleInput_frame (s : Snake) (ev : Option InputEvent) :
    (handleInput s ev).body = s.body ∧ (handleInput s ev).length = s.length := by
  cases ev with
  | none => exact ⟨rfl, rfl⟩
  | some e =>
    simp only [handleInput]
    split_ifs <;> exact ⟨rfl, rfl⟩

/-- Growth adds one to both the body length and the `length` field when
they agree. -/
theorem grow_length (s : Snake) (hlen : s.body.length = s.length) :
    s.grow.body.length = s.body.length + 1 ∧ s.grow.length = s.length + 1 := by
  refine ⟨?_, rfl⟩
  simp only [Snake.grow]
  rw [List.length_insertIdx _ _ (by omega)]

/-- Membership in the wall list built by `draw_border`. -/
theorem mem_borderCells (height width : Nat) (c : Coord) :
    c ∈ borderCells height width ↔
      ∃ x y : Nat, x < width ∧ y < height ∧
        (y = 0 ∨ y = height - 1 ∨ x = 0 ∨ x = width - 1) ∧
        c = ((x : Int), (y : Int)) := by
  unfold borderCells
  rw [List.mem_flatMap]
  constructor
  · rintro ⟨y, hy, hc⟩
    rw [List.mem_filterMap] at hc
    obtain ⟨x, hx, hfx⟩ := hc
    rw [Option.ite_none_right_eq_some, Option.some.injEq] at hfx
    exact ⟨x, y, List.mem_range.1 hx, List.mem_range.1 hy, hfx.1, hfx.2.symm⟩
  · rintro ⟨x, y, hx, hy, hcond, rfl⟩
    exact ⟨y, List.mem_range.2 hy, List.mem_filterMap.2
      ⟨x, List.mem_range.2 hx, by rw [if_pos hcond]⟩⟩

/-- `Vec::insert` at an in-range index, as take/cons/drop. -/
theorem insertIdx_take_drop : ∀ (n : Nat) (t : Coord) (l : List Coord),
    n ≤ l.length → l.insertIdx n t = l.take n ++ t :: l.drop n
  | 0, t, l, _ => by simp
  | n + 1, t, [], h => by simp at h
  | n + 1, t, a :: l, h => by
    rw [List.insertIdx_succ_cons, insertIdx_take_drop n t l (by simpa using h)]
    simp

/-- A list whose last entry is `t` drops to `[t]` at its last index. -/
theorem drop_pred_eq_last (l : List Coord) (t : Coord) (n : Nat)
    (hlen : l.length = n) (h1 : 1 ≤ n) (hlast : l[n - 1]? = some t) :
    l.drop (n - 1) = [t] := by
  apply List.ext_getElem?
  intro j
  rw [List.getElem?_drop]
  rcases j with _ | k
  · simpa using hlast
  · rw [List.getElem?_eq_none (by omega)]
    simp

/-- The accept/reject behaviour of one `Apple::spawn` attempt. -/
theorem Apple.spawn_cases (a : Apple) (cell : Coord) (snake : Snake) (g : Game) :
    ((cell ∉ g.wall ∧ cell ∉ snake.body) →
      a.spawn cell snake g = { position := cell, «exists» := true }) ∧
    ((cell ∈ g.wall ∨ cell ∈ snake.body) →
      a.spawn cell snake g = { position := cell, «exists» := a.«exists» }) := by
  have hcond : (¬ g.wall.contains cell ∧ ¬ snake.body.contains cell) ↔
      (cell ∉ g.wall ∧ cell ∉ snake.body) := by
    rw [contains_iff, contains_iff]
  simp only [Apple.spawn]
  constructor
  · intro h
    rw [if_pos (hcond.2 h)]
  · intro h
    have hn : ¬ (¬ g.wall.contains cell ∧ ¬ snake.body.contains cell) := by
      rw [hcond]
      tauto
    rw [if_neg hn]

/-- Invariant of the apple-respawn retry loop: an accepted apple's
position is valid, no matter how many attempts were made. -/
theorem spawnLoop_valid (snake : Snake) (g : Game) :
    ∀ (cells : List Coord) (a : Apple),
      (a.«exists» = true → a.position ∉ g.wall ∧ a.position ∉ snake.body) →
      (spawnLoop snake g a cells).«exists» = true →
      (spawnLoop snake g a cells).position ∉ g.wall ∧
      (spawnLoop snake g a cells).position ∉ snake.body
  | [], a, hinv => by
    intro hx
    exact hinv hx
  | c :: cs, a, hinv => by
    simp only [spawnLoop]
    by_cases hx : a.«exists» = true
    · rw [if_pos hx]
      intro _
      exact hinv hx
    · rw [if_neg hx]
      apply spawnLoop_valid snake g cs (a.spawn c snake g)
      intro hx'
      by_cases hc : c ∈ g.wall ∨ c ∈ snake.body
      · rw [(Apple.spawn_cases a c snake g).2 hc] at hx'
        exact absurd hx' hx
      · push_neg at hc
        rw [(Apple.spawn_cases a c snake g).1 hc]
        exact hc

/-! ## Claim theorems -/

/-- C1: for every snake with `length ≥ 3`, `body` of matching length,
`head = body[0]` and `tail = body[length-1]`, `slither` produces a state
whose head is the old head plus the direction vector, whose body is the
new head followed by the old segments `0 .. length-2`, whose tail is the
old segment at index `length-2`, whose wake is the old tail, and whose
`length` is unchanged. -/
theorem C1_slither_translation (s : Snake) (h3 : 3 ≤ s.length)
    (hlen : s.body.length = s.length)
    (hhead : s.body[0]? = some s.head)
    (_htail : s.body[s.length - 1]? = some s.tail) :
    ∃ s', s.slither = some s' ∧
      s'.head = (s.head.1 + s.direction.1, s.head.2 + s.direction.2) ∧
      s'.body = s'.head :: s.body.take (s.length - 1) ∧
      s.body[s.length - 2]? = some s'.tail ∧
      s'.wake = s.tail ∧
      s'.length = s.length := by
  obtain ⟨t2, b4, ht2, heq, hblen, h0, h1, hmid, hlast⟩ := slither_run s h3 hlen
  refine ⟨_, heq, rfl, ?_, ht2, rfl, rfl⟩
  apply List.ext_getElem?
  intro j
  rcases j with _ | k
  · rw [List.getElem?_cons_zero]
    exact h0
  · rw [List.getElem?_cons_succ, List.getElem?_take]
    by_cases hk : k < s.length - 1
    · rcases Nat.eq_zero_or_pos k with rfl | hkpos
      · rw [if_pos hk, h1, hhead]
      · by_cases hk2 : k + 1 ≤ s.length - 2
        · rw [if_pos hk, hmid (k + 1) (by omega) hk2]
          simp
        · have hke : k = s.length - 2 := by omega
          have hke1 : k + 1 = s.length - 1 := by omega
          rw [if_pos hk, hke1, hlast, hke, ht2]
    · rw [if_neg hk,
        List.getElem?_eq_none (show b4.length ≤ k + 1 by omega)]

/-- C2: `body.length = length` holds after spawn (both are 3), is
preserved exactly by every successful slither, grows by exactly one
under `grow`, and therefore holds in every reachable snake state. -/
theorem C2_length_invariant (g : Game) :
    (Snake.spawn g).body.length = 3 ∧ (Snake.spawn g).length = 3 ∧
    (∀ s s' : Snake, s.slither = some s' →
      s'.body.length = s.body.length ∧ s'.length = s.length) ∧
    (∀ s : Snake, s.body.length = s.length →
      s.grow.body.length = s.body.length + 1 ∧
      s.grow.length = s.length + 1) ∧
    (∀ s : Snake, Reachable g s → s.body.length = s.length) := by
  refine ⟨rfl, rfl, fun s s' h => slither_preserves_length h,
    fun s h => grow_length s h, fun s h => ?_⟩
  induction h with
  | spawn => rfl
  | @input s ev hr ih =>
    have hf := handleInput_frame s ev
    rw [hf.1, hf.2]
    exact ih
  | grow hr ih =>
    have hg := grow_length _ ih
    omega
  | slither hr hsl ih =>
    have hp := slither_preserves_length hsl
    omega

/-- C8: with `length ≥ 3` and a body of matching length, every index the
slither shift loop touches is in range and no unsigned subtraction
underflows (the whole run succeeds); for `length = 3` the loop performs
exactly the single assignment `body[1] = body[0]`. -/
theorem C8_shift_loop_safe (s : Snake) (h3 : 3 ≤ s.length)
    (hlen : s.body.length = s.length) :
    (s.slither).isSome = true ∧
    (s.length = 3 → ∃ v, s.body[0]? = some v ∧
      shiftLoop (s.length - 2) s.body = some (s.body.set 1 v)) := by
  obtain ⟨t2, b4, ht2, heq, _⟩ := slither_run s h3 hlen
  refine ⟨by rw [heq]; rfl, ?_⟩
  intro hl3
  have h0 : (0 : Nat) < s.body.length := by omega
  have h1 : (1 : Nat) < s.body.length := by omega
  have hv := List.getElem?_eq_getElem h0
  have ha := List.getElem?_eq_getElem h1
  refine ⟨s.body[0], hv, ?_⟩
  rw [hl3]
  simp [shiftLoop, ha, hv]

/-- C3: with the current direction one of the four unit vectors, a turn
key whose requested direction is the exact reverse of the current
direction leaves the direction unchanged, and any other turn key sets
the direction to the requested one. -/
theorem C3_reversal_guard (s : Snake) (e : InputEvent) (T : Coord)
    (hD : s.direction = (0, -1) ∨ s.direction = (1, 0) ∨
      s.direction = (0, 1) ∨ s.direction = (-1, 0))
    (hT : turnTarget e = some T) :
    (handleInput s (some e)).direction =
      if T = (-s.direction.1, -s.direction.2) then s.direction else T := by
  obtain ⟨body, head, tail, wake, len, dir⟩ := s
  simp only at hD
  cases e with
  | keyW =>
    injection hT with h
    subst h
    rcases hD with rfl | rfl | rfl | rfl <;> simp [handleInput]
  | keyD =>
    injection hT with h
    subst h
    rcases hD with rfl | rfl | rfl | rfl <;> simp [handleInput]
  | keyS =>
    injection hT with h
    subst h
    rcases hD with rfl | rfl | rfl | rfl <;> simp [handleInput]
  | keyA =>
    injection hT with h
    subst h
    rcases hD with rfl | rfl | rfl | rfl <;> simp [handleInput]
  | esc => exact Option.noConfusion hT
  | other => exact Option.noConfusion hT

/-- C4: for a snake whose cached head is `body[0]` and whose body length
matches `length`, `collided_with_self` is true exactly when the head
equals a body segment at an index in `1 .. length-1`. -/
theorem C4_self_collision_iff (s : Snake) (hlen : s.body.length = s.length)
    (_hhead : s.body[0]? = some s.head) :
    s.collidedWithSelf = true ↔
      ∃ i, 1 ≤ i ∧ i ≤ s.length - 1 ∧ s.body[i]? = some s.head := by
  unfold Snake.collidedWithSelf
  rw [contains_iff]
  have htake : s.body.take s.length = s.body := by
    rw [← hlen, List.take_length]
  rw [htake]
  constructor
  · intro hmem
    obtain ⟨n, hn⟩ := List.mem_iff_getElem?.1 hmem
    rw [List.getElem?_drop] at hn
    have hlt : 1 + n < s.body.length := by
      by_contra hge
      rw [List.getElem?_eq_none (by omega)] at hn
      exact Option.noConfusion hn
    exact ⟨1 + n, by omega, by omega, hn⟩
  · rintro ⟨i, h1, h2, hi⟩
    apply List.mem_iff_getElem?.2
    refine ⟨i - 1, ?_⟩
    rw [List.getElem?_drop, show 1 + (i - 1) = i from by omega]
    exact hi

/-- C5: for an in-grid head cell, the arithmetic wall test of
`collided_with_wall` is true exactly on the border rows/columns, and
this agrees with membership in the wall list built by `draw_border`. -/
theorem C5_wall_test_equiv (s : Snake) (g : Game)
    (hx0 : 0 ≤ s.head.1) (hx1 : s.head.1 < (g.width : Int))
    (hy0 : 0 ≤ s.head.2) (hy1 : s.head.2 < (g.height : Int)) :
    (s.collidedWithWall g = true ↔
      (s.head.1 = 0 ∨ s.head.1 = (g.width : Int) - 1 ∨
       s.head.2 = 0 ∨ s.head.2 = (g.height : Int) - 1)) ∧
    (s.collidedWithWall g = true ↔
      s.head ∈ borderCells g.height g.width) := by
  have harith : s.collidedWithWall g = true ↔
      (s.head.1 = 0 ∨ s.head.1 = (g.width : Int) - 1 ∨
       s.head.2 = 0 ∨ s.head.2 = (g.height : Int) - 1) := by
    unfold Snake.collidedWithWall
    split_ifs <;> simp_all
  refine ⟨harith, harith.trans ?_⟩
  rw [mem_borderCells]
  constructor
  · intro hd
    refine ⟨s.head.1.toNat, s.head.2.toNat, by omega, by omega, by omega, ?_⟩
    rw [Prod.ext_iff]
    exact ⟨(Int.toNat_of_nonneg hx0).symm, (Int.toNat_of_nonneg hy0).symm⟩
  · rintro ⟨x, y, hx, hy, hcond, heq⟩
    rw [Prod.ext_iff] at heq
    obtain ⟨he1, he2⟩ := heq
    simp only at he1 he2
    omega

/-- C6: starting from a non-existing apple, one spawn attempt sets
`exists` exactly when the sampled cell is neither a wall cell nor a
snake-body cell, leaves `exists` false otherwise, and any apple accepted
by the surrounding retry loop has a valid position. -/
theorem C6_apple_spawn_valid (a : Apple) (cell : Coord) (snake : Snake)
    (g : Game) (cells : List Coord) (hex : a.«exists» = false) :
    ((a.spawn cell snake g).«exists» = true ↔
      (cell ∉ g.wall ∧ cell ∉ snake.body)) ∧
    ((cell ∈ g.wall ∨ cell ∈ snake.body) →
      (a.spawn cell snake g).«exists» = false) ∧
    ((spawnLoop snake g a cells).«exists» = true →
      (spawnLoop snake g a cells).position ∉ g.wall ∧
      (spawnLoop snake g a cells).position ∉ snake.body) := by
  have hrej : (cell ∈ g.wall ∨ cell ∈ snake.body) →
      (a.spawn cell snake g).«exists» = false := by
    intro h
    rw [(Apple.spawn_cases a cell snake g).2 h]
    exact hex
  refine ⟨⟨?_, ?_⟩, hrej, ?_⟩
  · intro hacc
    by_contra hc
    have : cell ∈ g.wall ∨ cell ∈ snake.body := by tauto
    rw [hrej this] at hacc
    exact Bool.noConfusion hacc
  · intro h
    rw [(Apple.spawn_cases a cell snake g).1 h]
  · apply spawnLoop_valid snake g cells a
    intro hx
    rw [hex] at hx
    exact Bool.noConfusion hx

/-- C7: for a snake with `body.length = length ≥ 2` whose cached tail is
`body[length-1]`, `grow` duplicates the tail immediately before the last
segment (so the two final segments are both the old tail), increments
`length` by one, and leaves the head, the direction and all earlier body
segments unchanged. -/
theorem C7_grow_spec (s : Snake) (h2 : 2 ≤ s.length)
    (hlen : s.body.length = s.length)
    (htail : s.body[s.length - 1]? = some s.tail) :
    s.grow.length = s.length + 1 ∧
    s.grow.body = s.body.take (s.length - 1) ++ [s.tail, s.tail] ∧
    s.grow.head = s.head ∧
    s.grow.direction = s.direction ∧
    s.grow.body.length = s.body.length + 1 := by
  have hb : s.grow.body = s.body.insertIdx (s.length - 1) (s.tail.1, s.tail.2) :=
    rfl
  refine ⟨rfl, ?_, rfl, rfl, (grow_length s hlen).1⟩
  rw [hb, insertIdx_take_drop _ _ _ (by omega),
    drop_pred_eq_last s.body s.tail s.length hlen (by omega) htail]

/-- C9 counterexample: a game whose dimensions are both below 5 is
constructed by `Game::new` without any error, and the game loop's first
snake movement on it proceeds normally — no startup validation exists. -/
theorem C9_counterexample :
    (Game.new 4 4 [] 0 100).height < 5 ∧ (Game.new 4 4 [] 0 100).width < 5 ∧
    Game.new 4 4 [] 0 100 =
      { height := 4, width := 4, wall := [], score := 0, pollingRate := 100 } ∧
    (Snake.spawn (Game.new 4 4 [] 0 100)).slither.isSome = true := by
  refine ⟨by decide, by decide, rfl, ?_⟩
  decide

/-- C9 amended: neither `Game::new` nor startup validates the grid
dimensions — construction succeeds verbatim for every height and width;
the only configuration ever built, `Game::default`, has dimensions
40 × 15, which do satisfy the ≥ 5 contract. -/
theorem C9_no_dimension_validation (h w : Nat) (wall : List Coord)
    (sc pr : Nat) :
    Game.new h w wall sc pr =
      { height := h, width := w, wall := wall, score := sc,
        pollingRate := pr } ∧
    5 ≤ Game.default.height ∧ 5 ≤ Game.default.width :=
  ⟨rfl, by decide, by decide⟩

/-- Concrete instance of the amended C9: a 2 × 3 game is constructed
verbatim, and the default game's dimensions satisfy the contract. -/
theorem C9_witness :
    Game.new 2 3 [] 0 5 =
      { height := 2, width := 3, wall := [], score := 0, pollingRate := 5 } ∧
    5 ≤ Game.default.height ∧ 5 ≤ Game.default.width :=
  C9_no_dimension_validation 2 3 [] 0 5

/-- C10: every `Apple::spawn` attempt overwrites `position` with the
sampled cell, accepted or not; on a rejected cell (wall or snake body)
the `exists` flag is left as it was, so only `exists` marks validity. -/
theorem C10_spawn_overwrites_position (a : Apple) (cell : Coord)
    (snake : Snake) (g : Game) :
    (a.spawn cell snake g).position = cell ∧
    ((cell ∈ g.wall ∨ cell ∈ snake.body) →
      (a.spawn cell snake g).«exists» = a.«exists») := by
  constructor
  · by_cases hc : cell ∈ g.wall ∨ cell ∈ snake.body
    · rw [(Apple.spawn_cases a cell snake g).2 hc]
    · push_neg at hc
      rw [(Apple.spawn_cases a cell snake g).1 hc]
  · intro hc
    rw [(Apple.spawn_cases a cell snake g).2 hc]

/-! ## Witnesses -/

/-- Concrete run of C1 on the spawned snake of the default game. -/
theorem C1_witness :
    ∃ s', (Snake.spawn Game.default).slither = some s' ∧
      s'.head = ((Snake.spawn Game.default).head.1 +
          (Snake.spawn Game.default).direction.1,
        (Snake.spawn Game.default).head.2 +
          (Snake.spawn Game.default).direction.2) ∧
      s'.body = s'.head ::
        (Snake.spawn Game.default).body.take
          ((Snake.spawn Game.default).length - 1) ∧
      (Snake.spawn Game.default).body[(Snake.spawn Game.default).length - 2]? =
        some s'.tail ∧
      s'.wake = (Snake.spawn Game.default).tail ∧
      s'.length = (Snake.spawn Game.default).length :=
  C1_slither_translation (Snake.spawn Game.default) (by decide) (by decide)
    (by decide) (by decide)

/-- Concrete instance of C2's growth clause at the default game. -/
theorem C2_witness :
    (Snake.spawn Game.default).grow.body.length =
        (Snake.spawn Game.default).body.length + 1 ∧
      (Snake.spawn Game.default).grow.length =
        (Snake.spawn Game.default).length + 1 :=
  (C2_length_invariant Game.default).2.2.2.1 (Snake.spawn Game.default)
    (by decide)

/-- Concrete instance of C3: a left-turn request against a rightward
snake is the exact reverse and leaves the direction unchanged. -/
theorem C3_witness :
    (handleInput (Snake.spawn Game.default) (some InputEvent.keyA)).direction =
      (1, 0) := by
  have h := C3_reversal_guard (Snake.spawn Game.default) InputEvent.keyA
    (-1, 0) (Or.inr (Or.inl (by decide))) (by decide)
  rw [h]
  decide

/-- Concrete instance of C4: a snake whose head reappears at body index 2
is flagged self-collided. -/
theorem C4_witness :
    (Snake.new (1, 1) [(1, 1), (2, 1), (1, 1)] (1, 1) (0, 1) 3
      (1, 0)).collidedWithSelf = true :=
  (C4_self_collision_iff
      (Snake.new (1, 1) [(1, 1), (2, 1), (1, 1)] (1, 1) (0, 1) 3 (1, 0))
      (by decide) (by decide)).2
    ⟨2, by decide, by decide, by decide⟩

/-- Concrete instance of C5: a head on the left wall column of the
default grid is flagged wall-collided. -/
theorem C5_witness :
    (Snake.new (0, 3) [] (0, 0) (0, 0) 0 (1, 0)).collidedWithWall
      Game.default = true :=
  ((C5_wall_test_equiv (Snake.new (0, 3) [] (0, 0) (0, 0) 0 (1, 0))
      Game.default (by decide) (by decide) (by decide) (by decide)).1).2
    (Or.inl (by decide))

/-- Concrete instance of C6: a free interior cell is accepted. -/
theorem C6_witness :
    ((Apple.default).spawn (2, 2) (Snake.spawn Game.default)
      (Game.new 15 40 [(0, 0)] 0 100)).«exists» = true :=
  (C6_apple_spawn_valid Apple.default (2, 2) (Snake.spawn Game.default)
      (Game.new 15 40 [(0, 0)] 0 100) [] rfl).1.2
    ⟨by decide, by decide⟩

/-- Concrete instance of C7 on the spawned snake of the default game. -/
theorem C7_witness :
    (Snake.spawn Game.default).grow.length = 4 ∧
    (Snake.spawn Game.default).grow.body =
      [(13, 7), (12, 7), (11, 7), (11, 7)] := by
  have h := C7_grow_spec (Snake.spawn Game.default) (by decide) (by decide)
    (by decide)
  refine ⟨h.1, ?_⟩
  rw [h.2.1]
  decide

/-- Concrete instance of C8 on the spawned snake of the default game. -/
theorem C8_witness :
    ((Snake.spawn Game.default).slither).isSome = true :=
  (C8_shift_loop_safe (Snake.spawn Game.default) (by decide) (by decide)).1

/-- Concrete instance of C10: a rejected wall cell still overwrites the
apple's position while `exists` stays false. -/
theorem C10_witness :
    ((Apple.default).spawn (0, 0) (Snake.spawn Game.default)
      (Game.new 15 40 [(0, 0)] 0 100)).position = (0, 0) ∧
    ((Apple.default).spawn (0, 0) (Snake.spawn Game.default)
      (Game.new 15 40 [(0, 0)] 0 100)).«exists» = false := by
  have h := C10_spawn_overwrites_position Apple.default (0, 0)
    (Snake.spawn Game.default) (Game.new 15 40 [(0, 0)] 0 100)
  refine ⟨h.1, ?_⟩
  rw [h.2 (Or.inl (by decide))]
  decide

end Rake
